import Mathlib

/-!
Verification development for the Prior Authorization processing pipeline
(`src/pipeline/paprocessing/run_deprecated.py`).

The pipeline is shallowly embedded: Python dictionaries become association
lists over an inductive `Value` type, external collaborators (OpenAI chat
backends, the search index, blob storage, document intelligence) become an
`Env` record of oracle results, Python exceptions become `Except String`
results threaded together with the mutable pipeline state (so side effects
made before a raise survive it, as they do on the Python object).

The pydantic model classes (`PatientInformation`, `PhysicianInformation`,
`ClinicalInformation`) live in `src/pipeline/models.py`, which is not part
of the examined sources; they are abstracted as a `Schema`: a list of field
descriptors (name, alias, static default, default factory, declared type,
single-field constructor) plus a final whole-record construction predicate,
exactly the shape `validate_with_field_level_correction` interrogates via
`model_class.model_fields` / `model_class(**...)`.
-/

/-- A Python value as it appears in the pipeline's dictionaries.
`vNull` is Python `None`. Floats only occur as literal defaults (`0.0`),
so they are carried as their integer mantissa. -/
inductive Value where
  | vNull
  | vStr (s : String)
  | vInt (n : Int)
  | vFloat (units : Int)
  | vBool (b : Bool)
  | vList (xs : List Value)
  | vDict (kvs : List (String × Value))

/-- `d.any (·.1 = k)`: does the association list have key `k`? -/
def hasKey {α : Type} (d : List (String × α)) (k : String) : Bool :=
  d.any (fun p => p.1 = k)

/-- Python `dict[k] = v`: overwrite in place if the key exists (keeping its
position), otherwise append at the end (insertion order). -/
def setKey {α : Type} (d : List (String × α)) (k : String) (v : α) : List (String × α) :=
  if hasKey d k then d.map (fun p => if p.1 = k then (k, v) else p) else d ++ [(k, v)]

/-- Python `d.get(k, dflt)`. -/
def getKeyD {α : Type} (d : List (String × α)) (k : String) (dflt : α) : α :=
  match d.find? (fun p => p.1 = k) with
  | some p => p.2
  | none => dflt

/-- Python `d.update(kvs)`: merge `kvs` into `d` key by key, in order. -/
def dictUpdate {α : Type} (d : List (String × α)) (kvs : List (String × α)) :
    List (String × α) :=
  kvs.foldl (fun acc p => setKey acc p.1 p.2) d

/-- Lookup of a key inside a `Value` that should be a dict
(Python `v[k]`; `none` models the raised `KeyError`/`TypeError`). -/
def getKey (v : Value) (k : String) : Option Value :=
  match v with
  | .vDict kvs =>
    match kvs.find? (fun p => p.1 = k) with
    | some p => some p.2
    | none => none
  | _ => none

/-- The declared (outer) type of a pydantic field, as the `field_type`
dispatch in `validate_with_field_level_correction` distinguishes them. -/
inductive FieldType where
  | tStr | tInt | tFloat | tBool | tList | tDict | tOther

/-- The type-keyed fallback of `validate_with_field_level_correction`
(lines 403-418): str -> "Not provided", int -> 0, float -> 0.0,
bool -> False, list -> [], dict -> \x7b\x7d, otherwise None. -/
def typeFallback : FieldType → Value
  | .tStr => .vStr "Not provided"
  | .tInt => .vInt 0
  | .tFloat => .vFloat 0
  | .tBool => .vBool false
  | .tList => .vList []
  | .tDict => .vDict []
  | .tOther => .vNull

/-- One entry of `model_class.model_fields`. `construct v` models
`model_class(**\x7bfield_name: v\x7d)` restricted to this field:
`some w` is the validated value, `none` is a raised `ValidationError`.
`default = none` models Python `None` (the code tests `is not None`). -/
structure FieldDescr where
  name : String
  aliasName : Option String
  default : Option Value
  defaultFactory : Option (Unit → Value)
  fieldType : FieldType
  construct : Value → Option Value

/-- The default substituted on a field-level validation failure, in the
priority order of lines 398-418: declared static default, else the
default-factory result, else the type-keyed fallback. -/
def priorityDefault (f : FieldDescr) : Value :=
  match f.default with
  | some d => d
  | none =>
    match f.defaultFactory with
    | some g => g ()
    | none => typeFallback f.fieldType

/-- `data.get(expected_alias, None)` (line 390): an absent key reads as
Python `None`. -/
def lookupRaw (data : List (String × Value)) (k : String) : Value :=
  getKeyD data k .vNull

/-- The per-field body of the loop at lines 387-419: look the field up by
its alias (or name), attempt single-field construction, keep the validated
value on success, substitute the priority default on `ValidationError`. -/
def validateField (data : List (String × Value)) (f : FieldDescr) : Value :=
  let expected := f.aliasName.getD f.name
  let value := lookupRaw data expected
  match f.construct value with
  | some v => v
  | none => priorityDefault f

/-- A pydantic model class as the validator consumes it. `finalOk` models
whether `model_class(**validated_data)` (line 422) succeeds. -/
structure Schema where
  fields : List FieldDescr
  finalOk : List (String × Value) → Bool

/-- `validate_with_field_level_correction` (lines 379-427): every declared
field is validated (or defaulted) into `validated_data`, then the full
record is constructed; a failing final construction re-raises. -/
def validate_with_field_level_correction (m : Schema) (data : List (String × Value)) :
    Except String (List (String × Value)) :=
  let validated := m.fields.map (fun f => (f.name, validateField data f))
  if m.finalOk validated then .ok validated else .error "ValidationError"

/-- `Model()`: the all-default instance returned on a caught extraction
failure (lines 460, 493, 526). The code relies on every field of these
models being constructible without arguments (declared default or
factory); `vNull` stands for a field defaulting to Python `None`. -/
def fieldConstructorDefault (f : FieldDescr) : Value :=
  match f.default with
  | some d => d
  | none =>
    match f.defaultFactory with
    | some g => g ()
    | none => .vNull

/-- The record contents of `Model()`. -/
def allDefaultInstance (m : Schema) : List (String × Value) :=
  m.fields.map (fun f => (f.name, fieldConstructorDefault f))

/-- The outcome of a call to an external collaborator: a returned value or
a raised exception (carrying its message). -/
inductive ExtRes (α : Type) where
  | ok (a : α)
  | exn (e : String)

/-- A generation-backend result. `generate_chat_response` /
`generate_chat_response_o1` either return a dict
`\x7b"response": ..., "conversation_history": ...\x7d` or the literal string
sentinel `"maximum context length"`. -/
inductive GenOut where
  | out (response : Value) (conversation_history : List Value)
  | maxContext

/-- A prompt handed to a generation backend. Prompt *content* is rendered
by the external `PromptManager`, so prompts are opaque tags carrying only
the data the pipeline feeds the renderer. `pa` is
`create_prompt_pa(patient, physician, clinical, text, use_o1)` keyed by
the policy text argument and the `use_o1` flag. -/
inductive Prompt where
  | nerPatient
  | nerPhysician
  | nerClinician
  | queryExpansion
  | summarizePolicy (policy_text : String)
  | pa (policy : Value) (useO1 : Bool)

/-- The parameters of a `generate_chat_response` call that the spec's
claims mention: prompt, system message, response format, token budget. -/
structure ChatReq where
  prompt : Prompt
  system : Option String
  response_format : String
  max_tokens : Nat

/-- The parameters of a `generate_chat_response_o1` call. -/
structure O1Req where
  prompt : Prompt
  max_completion_tokens : Nat

/-- An external generation request issued by the pipeline, recorded in the
order the calls happen. -/
inductive CallEvent where
  | chat (req : ChatReq)
  | o1 (req : O1Req)

/-- Opaque handles for the jinja system-prompt templates loaded in the
constructor. -/
def SYSTEM_PROMPT_QUERY_EXPANSION : String := "query_expansion_system_prompt.jinja"

/-- `prior_auth_system_prompt.jinja`. -/
def SYSTEM_PROMPT_PRIOR_AUTH : String := "prior_auth_system_prompt.jinja"

/-- `summarize_policy_system.jinja`. -/
def SYSTEM_PROMPT_SUMMARIZE_POLICY : String := "summarize_policy_system.jinja"

/-- `ner_patient_system.jinja`. -/
def PATIENT_PROMPT_NER_SYSTEM : String := "ner_patient_system.jinja"

/-- `ner_physician_system.jinja`. -/
def PHYSICIAN_PROMPT_NER_SYSTEM : String := "ner_physician_system.jinja"

/-- `ner_clinician_system.jinja`. -/
def CLINICIAN_PROMPT_NER_SYSTEM : String := "ner_clinician_system.jinja"

/-- The environment of external collaborators for one run: every oracle is
the outcome the outside world would produce at that call site. Backends
called several times (`generate_chat_response_o1`, the determination and
summarization `generate_chat_response` calls) are indexed by a per-site
call counter so consecutive calls may differ. A search hit is modelled by
its `parent_path` attribute (`none` when the document lacks it). -/
structure Env where
  rawRemote : List String
  processedRemote : List String
  imageFiles : List String
  patientResp : ExtRes GenOut
  physicianResp : ExtRes GenOut
  clinicianResp : ExtRes GenOut
  queryResp : ExtRes GenOut
  search : ExtRes (List (Option String))
  download : ExtRes (Option String)
  analyze : ExtRes (Option String)
  o1Resp : Nat → ExtRes GenOut
  chatDet : Nat → ExtRes GenOut
  chatSum : Nat → ExtRes GenOut

/-- Per-run pipeline configuration: the `azure_openai` sampling settings
the claims mention and the three target schemas. -/
structure Config where
  max_tokens : Nat
  patientSchema : Schema
  physicianSchema : Schema
  clinicalSchema : Schema

/-- The mutable state of a `PAProcessingPipeline` object during `run`:
`self.results` (case id -> accumulated result mapping),
`self.conversation_history`, the trace of generation requests issued so
far, and the per-site call counters. -/
structure PState where
  results : List (String × List (String × Value))
  conversation_history : List (List Value)
  calls : List CallEvent
  nSum : Nat
  nDet : Nat
  nO1 : Nat

/-- The state at pipeline construction. -/
def initState : PState :=
  { results := [], conversation_history := [], calls := [], nSum := 0, nDet := 0, nO1 := 0 }

/-- `log_output` (lines 318-340): merge `data` into the case's result
mapping and append the conversation turns when a non-empty list is given
(`if conversation_history:` is Python truthiness). The whole body is
wrapped in a broad `except` that only logs, so a non-dict `data` (whose
`update` raises) leaves the state unchanged. -/
def log_output (caseId : String) (st : PState) (data : Value)
    (conv : Option (List Value)) : PState :=
  match data with
  | .vDict kvs =>
    let cur := getKeyD st.results caseId []
    let st := { st with results := setKey st.results caseId (dictUpdate cur kvs) }
    match conv with
    | some c => if c.isEmpty then st else
        { st with conversation_history := st.conversation_history ++ [c] }
    | none => st
  | _ => st

/-- What `store_output` (lines 342-364) does to durable storage. -/
inductive StoreAction where
  | upserted (doc : List (String × Value)) (queryCaseId : String)
  | warnedNoResults

/-- `store_output`: if the case accumulated any data, upsert a copy of it
(plus the `caseId` key) into Cosmos DB keyed by the case id; otherwise log
a warning and write nothing. -/
def store_output (caseId : String) (st : PState) : StoreAction :=
  let case_data := getKeyD st.results caseId []
  if case_data.isEmpty then .warnedNoResults
  else .upserted (setKey case_data "caseId" (.vStr caseId)) caseId

/-- `upload_files_to_blob` (lines 192-240): after uploading, it always
stores the list of remote files under `results[caseId][step]`. -/
def upload_files_to_blob (caseId step : String) (urls : List String) (st : PState) :
    PState :=
  let cur := getKeyD st.results caseId []
  { st with results := setKey st.results caseId (setKey cur step (.vList (urls.map .vStr))) }

/-- `process_uploaded_files` (lines 242-275): uploads the raw files
(recording them under "raw_uploaded_files"), extracts page images and
uploads them under "processed_images" when any were produced. The
extracted image list itself is then replaced in `run` by
`find_all_files`, modelled by `env.imageFiles`. -/
def process_uploaded_files (caseId : String) (env : Env) (st : PState) : PState :=
  let st := upload_files_to_blob caseId "raw_uploaded_files" env.rawRemote st
  if env.processedRemote.isEmpty then st
  else upload_files_to_blob caseId "processed_images" env.processedRemote st

/-- One extraction call (`extract_patient_data` lines 429-460 and its two
siblings): issue the NER generation call, validate the response payload
field-by-field, log the validated record with its conversation turns, and
return it. The whole body sits in a broad `try`: a raised backend call, a
string sentinel response (whose `["response"]` indexing raises), a
non-dict payload (whose `.get` raises inside the validator) and the
validator's final-construction re-raise are all caught and degraded to the
model's all-default instance, without logging anything. -/
def extract_one (caseId : String) (m : Schema) (prompt : Prompt) (system : String)
    (resp : ExtRes GenOut) (cfg : Config) (st : PState) :
    PState × List (String × Value) :=
  let req : ChatReq :=
    { prompt := prompt, system := some system, response_format := "json_object",
      max_tokens := cfg.max_tokens }
  let st := { st with calls := st.calls ++ [.chat req] }
  match resp with
  | .exn _ => (st, allDefaultInstance m)
  | .ok .maxContext => (st, allDefaultInstance m)
  | .ok (.out r conv) =>
    match r with
    | .vDict kvs =>
      match validate_with_field_level_correction m kvs with
      | .ok inst => (log_output caseId st (.vDict inst) (some conv), inst)
      | .error _ => (st, allDefaultInstance m)
    | _ => (st, allDefaultInstance m)

/-- The three validated records produced by `extract_all_data`. -/
structure ExtractedTriple where
  patient : List (String × Value)
  physician : List (String × Value)
  clinician : List (String × Value)

/-- `extract_all_data` (lines 528-551): the patient, physician and
clinician extractions joined by `asyncio.gather`. Each is independently
exception-safe, so the outer `except` is unreachable; the cooperative
scheduler serialises their state merges (modelled in launch order). -/
def extract_all_data (caseId : String) (cfg : Config) (env : Env) (st : PState) :
    PState × ExtractedTriple :=
  let p := extract_one caseId cfg.patientSchema .nerPatient PATIENT_PROMPT_NER_SYSTEM
    env.patientResp cfg st
  let ph := extract_one caseId cfg.physicianSchema .nerPhysician PHYSICIAN_PROMPT_NER_SYSTEM
    env.physicianResp cfg p.1
  let c := extract_one caseId cfg.clinicalSchema .nerClinician CLINICIAN_PROMPT_NER_SYSTEM
    env.clinicianResp cfg ph.1
  (c.1, { patient := p.2, physician := ph.2, clinician := c.2 })

/-- `expand_query_and_search_policy` (lines 584-615): one structured-json
generation call; on success its response payload is logged under
"query_expansion" and returned. There is no `try` here: a raised call
propagates, and a string sentinel response makes the
`api_response_query["response"]` argument evaluation raise `TypeError`. -/
def expand_query_and_search_policy (caseId : String) (cfg : Config) (env : Env)
    (st : PState) : PState × Except String (Value × List Value) :=
  let req : ChatReq :=
    { prompt := .queryExpansion, system := some SYSTEM_PROMPT_QUERY_EXPANSION,
      response_format := "json_object", max_tokens := cfg.max_tokens }
  let st := { st with calls := st.calls ++ [.chat req] }
  match env.queryResp with
  | .exn e => (st, .error e)
  | .ok .maxContext => (st, .error "TypeError: string indices must be integers")
  | .ok (.out r conv) => (log_output caseId st r (some conv), .ok (r, conv))

/-- `locate_policy` (lines 553-582), applied to the query-expansion
response payload (the code receives the full response dict and drills
`["response"]["optimized_query"]`). A missing "optimized_query" key (a
raised `KeyError`), and any exception during the search, are caught by the
broad `except` and mapped to "Error locating policy"; zero candidates give
"No results found"; otherwise the first ranked candidate's "parent_path"
attribute is returned, defaulting to "Path not found". -/
def locate_policy (response_payload : Value) (env : Env) : String :=
  match getKey response_payload "optimized_query" with
  | none => "Error locating policy"
  | some _ =>
    match env.search with
    | .exn _ => "Error locating policy"
    | .ok [] => "No results found"
    | .ok (first :: _) => first.getD "Path not found"

/-- `get_policy_text_from_blob` (lines 277-298): download the policy
bytes; `None` bytes raise inside the `try`, and that exception - like any
download or analysis exception - is caught, logged and degraded to the
empty string. Otherwise the document-intelligence `content` is returned
as-is, so a `None` content is passed through as Python `None`. -/
def get_policy_text_from_blob (env : Env) : Option String :=
  match env.download with
  | .exn _ => some ""
  | .ok none => some ""
  | .ok (some _) =>
    match env.analyze with
    | .exn _ => some ""
    | .ok content => content

/-- `summarize_policy` (lines 617-644): a dedicated plain-text generation
call with a fixed 4096-token budget; the summary is logged under
"summarize_policy" and returned. A raised call propagates; a string
sentinel response makes the `["response"]` indexing raise. -/
def summarize_policy (caseId : String) (cfg : Config) (env : Env) (st : PState)
    (policy_text : String) : PState × Except String Value :=
  let req : ChatReq :=
    { prompt := .summarizePolicy policy_text,
      system := some SYSTEM_PROMPT_SUMMARIZE_POLICY,
      response_format := "text", max_tokens := 4096 }
  let j := st.nSum
  let st := { st with nSum := j + 1, calls := st.calls ++ [.chat req] }
  match env.chatSum j with
  | .exn e => (st, .error e)
  | .ok .maxContext => (st, .error "TypeError: string indices must be integers")
  | .ok (.out r conv) => (log_output caseId st (.vDict [("summary_policy", r)]) (some conv), .ok r)

/-- `generate_response_with_model` (lines 666-692), Path A of the
determination stage: one o1 call with a 15000 completion-token budget; a
"maximum context length" response triggers exactly one retry with the
prompt rebuilt from a summarized policy; the result of the retry is
returned as-is, and any exception (from either o1 call or from the
summarization) is re-raised to the caller. -/
def pathA (caseId : String) (cfg : Config) (env : Env) (st : PState)
    (user_prompt : Prompt) (policy_text : String) (use_o1 : Bool) :
    PState × Except String GenOut :=
  let req1 : O1Req := { prompt := user_prompt, max_completion_tokens := 15000 }
  let k := st.nO1
  let st := { st with nO1 := k + 1, calls := st.calls ++ [.o1 req1] }
  match env.o1Resp k with
  | .exn e => (st, .error e)
  | .ok .maxContext =>
    match summarize_policy caseId cfg env st policy_text with
    | (st, .error e) => (st, .error e)
    | (st, .ok summary) =>
      let req2 : O1Req := { prompt := .pa summary use_o1, max_completion_tokens := 15000 }
      let k2 := st.nO1
      let st := { st with nO1 := k2 + 1, calls := st.calls ++ [.o1 req2] }
      match env.o1Resp k2 with
      | .exn e => (st, .error e)
      | .ok r => (st, .ok r)
  | .ok r => (st, .ok r)

/-- One attempt of the Path B loop (lines 712-753): a 4o call with the
configured sampling parameters and plain-text response format; a
"maximum context length" response triggers one retry with the prompt
rebuilt from a summarized policy (`use_o1` is `False` at this point, so
the rebuilt prompt carries `use_o1 = false`); any exception escapes to
the loop's `except`. -/
def pathBAttempt (caseId : String) (cfg : Config) (env : Env) (st : PState)
    (user_prompt : Prompt) (policy_text : String) : PState × Except String GenOut :=
  let req : ChatReq :=
    { prompt := user_prompt, system := some SYSTEM_PROMPT_PRIOR_AUTH,
      response_format := "text", max_tokens := cfg.max_tokens }
  let k := st.nDet
  let st := { st with nDet := k + 1, calls := st.calls ++ [.chat req] }
  match env.chatDet k with
  | .exn e => (st, .error e)
  | .ok .maxContext =>
    match summarize_policy caseId cfg env st policy_text with
    | (st, .error e) => (st, .error e)
    | (st, .ok summary) =>
      let req2 : ChatReq :=
        { prompt := .pa summary false, system := some SYSTEM_PROMPT_PRIOR_AUTH,
          response_format := "text", max_tokens := cfg.max_tokens }
      let k2 := st.nDet
      let st := { st with nDet := k2 + 1, calls := st.calls ++ [.chat req2] }
      match env.chatDet k2 with
      | .exn e => (st, .error e)
      | .ok r => (st, .ok r)
  | .ok r => (st, .ok r)

/-- The Path B loop (`for attempt in range(1, max_retries + 1)` with
`max_retries = 2`): a failed first attempt is logged and retried once; a
failed second attempt re-raises its exception. -/
def pathB (caseId : String) (cfg : Config) (env : Env) (st : PState)
    (user_prompt : Prompt) (policy_text : String) : PState × Except String GenOut :=
  match pathBAttempt caseId cfg env st user_prompt policy_text with
  | (st, .ok r) => (st, .ok r)
  | (st, .error _) =>
    match pathBAttempt caseId cfg env st user_prompt policy_text with
    | (st, .ok r) => (st, .ok r)
    | (st, .error e2) => (st, .error e2)

/-- Lines 768-774: read `api_response_determination["response"]` (which
raises `TypeError` when the surviving value is the string sentinel) and
log the final determination. -/
def finishDetermination (caseId : String) (st : PState) (r : GenOut) :
    PState × Except String Unit :=
  match r with
  | .maxContext => (st, .error "TypeError: string indices must be integers")
  | .out resp conv =>
    (log_output caseId st (.vDict [("final_determination", resp)]) (some conv), .ok ())

/-- `generate_final_determination` (lines 646-774): build the prior-auth
prompt once from the full policy text and the incoming `use_o1` flag; when
`use_o1` is set try Path A, falling back to Path B on any Path A
exception; when Path A was skipped or fell back, run the two-attempt
Path B; the surviving response is logged under "llm_determination". -/
def generate_final_determination (caseId : String) (cfg : Config) (env : Env)
    (st : PState) (policy_text : String) (use_o1 : Bool) : PState × Except String Unit :=
  let user_prompt := Prompt.pa (.vStr policy_text) use_o1
  let afterA : PState × Option GenOut :=
    if use_o1 then
      match pathA caseId cfg env st user_prompt policy_text use_o1 with
      | (st', .ok r) => (st', some r)
      | (st', .error _) => (st', none)
    else (st, none)
  match afterA with
  | (st', some r) => finishDetermination caseId st' r
  | (st', none) =>
    match pathB caseId cfg env st' user_prompt policy_text with
    | (st'', .error e) => (st'', .error e)
    | (st'', .ok r) => finishDetermination caseId st'' r

/-- How one `run` ended: the early return on an empty upload list (before
the `try`/`finally`), normal completion, the silent stop on a retrieval
sentinel, or an exception caught at the run boundary. -/
inductive Outcome where
  | noFiles
  | completed
  | policyNotFound
  | failed (msg : String)

/-- The observable result of one `run`: its outcome, the final pipeline
state, the single teardown `store_output` action (`none` when the
teardown never ran), and whether the materialization and determination
stages were entered. -/
structure RunResult where
  outcome : Outcome
  st : PState
  storeAction : Option StoreAction
  materializeRan : Bool
  determinationRan : Bool

/-- The `finally` block (lines 883-895): clean the temp dir and flush the
case results exactly once, whatever the body did. -/
def finishRun (caseId : String) (o : Outcome) (st : PState) (m d : Bool) : RunResult :=
  { outcome := o, st := st, storeAction := some (store_output caseId st),
    materializeRan := m, determinationRan := d }

/-- `run` (lines 776-895). An empty upload list logs and returns before
the `try`/`finally`, so nothing is flushed. Otherwise the stages are
sequenced inside the `try`: file processing, the three-way extraction, the
query expansion (whose exceptions reach the run boundary), policy
location - either sentinel returns silently - policy text materialization
(a `None` text raises `ValueError`; the empty string flows on and is
logged under "policy_extraction"), and the final determination. Any
exception is caught at the run boundary and the run marked failed; the
`finally` teardown flushes in every non-early path. -/
def run (caseId : String) (cfg : Config) (env : Env) (uploadedFiles : List String)
    (use_o1 : Bool) : RunResult :=
  if uploadedFiles.isEmpty then
    { outcome := .noFiles, st := initState, storeAction := none,
      materializeRan := false, determinationRan := false }
  else
    let st := process_uploaded_files caseId env initState
    let ext := extract_all_data caseId cfg env st
    match expand_query_and_search_policy caseId cfg env ext.1 with
    | (st, .error e) => finishRun caseId (.failed e) st false false
    | (st, .ok (r, _)) =>
      let policy_location := locate_policy r env
      if policy_location = "No results found" ∨ policy_location = "Error locating policy" then
        finishRun caseId .policyNotFound st false false
      else
        match get_policy_text_from_blob env with
        | none =>
          finishRun caseId (.failed "Policy text extraction returned None") st true false
        | some policy_text =>
          let st := log_output caseId st
            (.vDict [("policy_location", .vStr policy_location),
                     ("policy_text", .vStr policy_text)]) none
          match generate_final_determination caseId cfg env st policy_text use_o1 with
          | (st, .error e) => finishRun caseId (.failed e) st true true
          | (st, .ok _) => finishRun caseId .completed st true true

/-! ### Association-list lemmas -/

theorem find?_eq_none_of_not_hasKey {α : Type} (d : List (String × α)) (k : String)
    (h : hasKey d k = false) : d.find? (fun p => p.1 = k) = none := by
  rw [List.find?_eq_none]
  intro x hx
  simp only [hasKey, List.any_eq_false, decide_eq_true_eq] at h
  simpa using h x hx

theorem find?_setKey_self {α : Type} (d : List (String × α)) (k : String) (v : α) :
    (setKey d k v).find? (fun p => p.1 = k) = some (k, v) := by
  unfold setKey
  by_cases h : hasKey d k
  · rw [if_pos h, List.find?_map]
    have hfn : ((fun p => decide (p.1 = k)) ∘ (fun p : String × α =>
        if p.1 = k then (k, v) else p)) = (fun p : String × α => decide (p.1 = k)) := by
      funext p
      by_cases hp : p.1 = k <;> simp [hp]
    rw [hfn]
    obtain ⟨q, hq⟩ : ∃ q, d.find? (fun p => decide (p.1 = k)) = some q := by
      cases hf : d.find? (fun p => decide (p.1 = k)) with
      | some q => exact ⟨q, rfl⟩
      | none =>
        exfalso
        rw [List.find?_eq_none] at hf
        simp only [hasKey, List.any_eq_true] at h
        obtain ⟨p, hp, hpk⟩ := h
        exact hf p hp hpk
    have hqk : q.1 = k := by simpa using List.find?_some hq
    rw [hq]
    simp [hqk]
  · rw [if_neg h, List.find?_append,
      find?_eq_none_of_not_hasKey d k (Bool.of_not_eq_true h)]
    simp

theorem getKeyD_setKey_self {α : Type} (d : List (String × α)) (k : String) (v dflt : α) :
    getKeyD (setKey d k v) k dflt = v := by
  unfold getKeyD
  rw [find?_setKey_self]

theorem hasKey_setKey_self {α : Type} (d : List (String × α)) (k : String) (v : α) :
    hasKey (setKey d k v) k = true := by
  have h := find?_setKey_self d k v
  simp only [hasKey, List.any_eq_true]
  exact ⟨(k, v), List.mem_of_find?_eq_some h, by simp⟩

theorem hasKey_setKey_mono {α : Type} (d : List (String × α)) (k k' : String) (v : α)
    (h : hasKey d k = true) : hasKey (setKey d k' v) k = true := by
  simp only [hasKey, List.any_eq_true, decide_eq_true_eq] at h ⊢
  obtain ⟨p, hp, hpk⟩ := h
  unfold setKey
  by_cases h' : hasKey d k'
  · rw [if_pos h']
    refine ⟨if p.1 = k' then (k', v) else p, List.mem_map_of_mem _ hp, ?_⟩
    by_cases hk : p.1 = k'
    · rw [if_pos hk, ← hk]
      exact hpk
    · rw [if_neg hk]
      exact hpk
  · rw [if_neg h']
    exact ⟨p, List.mem_append_left _ hp, hpk⟩

theorem hasKey_dictUpdate_mono {α : Type} (kvs d : List (String × α)) (k : String)
    (h : hasKey d k = true) : hasKey (dictUpdate d kvs) k = true := by
  induction kvs generalizing d with
  | nil => exact h
  | cons p ps ih =>
    unfold dictUpdate
    simp only [List.foldl_cons]
    exact ih (setKey d p.1 p.2) (hasKey_setKey_mono d k p.1 p.2 h)

/-! ### Invariant: the case's accumulated mapping only grows -/

/-- Key presence in the case's accumulated result mapping. -/
def caseHasKey (caseId : String) (st : PState) (k : String) : Bool :=
  hasKey (getKeyD st.results caseId []) k

theorem caseHasKey_log_output (caseId : String) (st : PState) (data : Value)
    (conv : Option (List Value)) (k : String) (h : caseHasKey caseId st k = true) :
    caseHasKey caseId (log_output caseId st data conv) k = true := by
  unfold log_output
  match data with
  | .vNull | .vStr _ | .vInt _ | .vFloat _ | .vBool _ | .vList _ => exact h
  | .vDict kvs =>
    have base : caseHasKey caseId
        { st with results := (setKey st.results caseId
            (dictUpdate (getKeyD st.results caseId []) kvs)) } k = true := by
      unfold caseHasKey
      simp only
      rw [getKeyD_setKey_self]
      exact hasKey_dictUpdate_mono kvs _ k h
    match conv with
    | none => exact base
    | some c =>
      by_cases hc : c.isEmpty
      · simpa [hc] using base
      · simpa [hc] using base

theorem caseHasKey_extract_one (caseId : String) (m : Schema) (prompt : Prompt)
    (system : String) (resp : ExtRes GenOut) (cfg : Config) (st : PState) (k : String)
    (h : caseHasKey caseId st k = true) :
    caseHasKey caseId (extract_one caseId m prompt system resp cfg st).1 k = true := by
  unfold extract_one
  match resp with
  | .exn _ => exact h
  | .ok .maxContext => exact h
  | .ok (.out r conv) =>
    match r with
    | .vNull | .vStr _ | .vInt _ | .vFloat _ | .vBool _ | .vList _ => exact h
    | .vDict kvs =>
      simp only
      match validate_with_field_level_correction m kvs with
      | .ok inst => exact caseHasKey_log_output caseId _ _ _ k h
      | .error _ => exact h

theorem caseHasKey_extract_all (caseId : String) (cfg : Config) (env : Env)
    (st : PState) (k : String) (h : caseHasKey caseId st k = true) :
    caseHasKey caseId (extract_all_data caseId cfg env st).1 k = true := by
  unfold extract_all_data
  exact caseHasKey_extract_one _ _ _ _ _ _ _ _
    (caseHasKey_extract_one _ _ _ _ _ _ _ _
      (caseHasKey_extract_one _ _ _ _ _ _ _ _ h))

theorem caseHasKey_upload (caseId step : String) (urls : List String) (st : PState)
    (k : String) (h : caseHasKey caseId st k = true) :
    caseHasKey caseId (upload_files_to_blob caseId step urls st) k = true := by
  unfold upload_files_to_blob caseHasKey
  simp only
  rw [getKeyD_setKey_self]
  exact hasKey_setKey_mono _ _ _ _ h

theorem caseHasKey_process (caseId : String) (env : Env) (st : PState) :
    caseHasKey caseId (process_uploaded_files caseId env st) "raw_uploaded_files" = true := by
  unfold process_uploaded_files
  have h1 : caseHasKey caseId
      (upload_files_to_blob caseId "raw_uploaded_files" env.rawRemote st)
      "raw_uploaded_files" = true := by
    unfold upload_files_to_blob caseHasKey
    simp only
    rw [getKeyD_setKey_self]
    exact hasKey_setKey_self _ _ _
  by_cases hp : env.processedRemote.isEmpty
  · simpa [hp] using h1
  · simp only [hp, if_false]
    exact caseHasKey_upload _ _ _ _ _ h1

/-- Any state whose case mapping still holds some key flushes as an upsert
of the full accumulated mapping keyed by the case id. -/
theorem store_output_upserts_of_caseHasKey (caseId : String) (st : PState) (k : String)
    (h : caseHasKey caseId st k = true) :
    store_output caseId st =
      .upserted (setKey (getKeyD st.results caseId []) "caseId" (.vStr caseId)) caseId := by
  unfold store_output
  have hne : (getKeyD st.results caseId []).isEmpty = false := by
    rcases hd : getKeyD st.results caseId [] with _ | ⟨p, ps⟩
    · unfold caseHasKey at h
      rw [hd] at h
      simp [hasKey] at h
    · simp
  simp [hne]

/-! ### C2: Schema Validator field-level correction -/

theorem find?_validated_of_mem (fields : List FieldDescr) (data : List (String × Value))
    (f : FieldDescr) (hf : f ∈ fields) (hnd : (fields.map FieldDescr.name).Nodup) :
    (fields.map (fun g => (g.name, validateField data g))).find? (fun p => p.1 = f.name)
      = some (f.name, validateField data f) := by
  induction fields with
  | nil => cases hf
  | cons g gs ih =>
    simp only [List.map_cons, List.nodup_cons] at hnd
    rcases List.mem_cons.mp hf with hfg | hfg
    · subst hfg
      simp only [List.map_cons]
      rw [List.find?_cons_of_pos]
      simp
    · have hne : g.name ≠ f.name := by
        intro he
        exact hnd.1 (he ▸ List.mem_map_of_mem FieldDescr.name hfg)
      simp only [List.map_cons]
      rw [List.find?_cons_of_neg]
      · exact ih hfg hnd.2
      · simpa using hne

/-- C2 (amended): for every field declared in the target schema, the
validator looks the field up by its external alias (an absent key reading
as null) and attempts single-field construction; whenever that
construction fails, the corrected value is, in priority order, the
declared static default, else the default-factory result, else the
type-keyed fallback (string -> "Not provided", int -> 0, float -> 0.0,
bool -> false, list -> empty, mapping -> empty, otherwise null); and in
every successfully constructed record each declared field is present,
bound to its validated-or-corrected value - never missing. -/
theorem C2_validator_field_correction (m : Schema) (data : List (String × Value))
    (f : FieldDescr) (hf : f ∈ m.fields)
    (hnd : (m.fields.map FieldDescr.name).Nodup) :
    (f.construct (lookupRaw data (f.aliasName.getD f.name)) = none →
      validateField data f = priorityDefault f) ∧
    (∀ r, validate_with_field_level_correction m data = .ok r →
      r.find? (fun p => p.1 = f.name) = some (f.name, validateField data f)) := by
  constructor
  · intro hfail
    unfold validateField
    simp only [hfail]
  · intro r hr
    unfold validate_with_field_level_correction at hr
    by_cases hok : m.finalOk (m.fields.map (fun g => (g.name, validateField data g)))
    · simp only [hok, if_true] at hr
      cases hr
      exact find?_validated_of_mem m.fields data f hf hnd
    · simp [hok] at hr

/-- Witness schema for C2: a single required string field with no declared
default, as pydantic `PatientId: str` (spec example). -/
def C2wField : FieldDescr :=
  { name := "PatientId", aliasName := none, default := none, defaultFactory := none,
    fieldType := .tStr,
    construct := fun v => match v with | .vStr s => some (.vStr s) | _ => none }

/-- Witness schema for C2. -/
def C2wSchema : Schema := { fields := [C2wField], finalOk := fun _ => true }

/-- Witness for C2: a raw mapping missing "PatientId" validates to the
type-keyed fallback "Not provided", and the field is present in the
validated record. -/
theorem C2_validator_field_correction_witness :
    validateField [] C2wField = priorityDefault C2wField ∧
    ([("PatientId", Value.vStr "Not provided")].find? (fun p => p.1 = "PatientId")
      = some ("PatientId", validateField [] C2wField)) := by
  have h := C2_validator_field_correction C2wSchema [] C2wField
    (List.mem_singleton.mpr rfl) (by simp [C2wSchema])
  exact ⟨h.1 rfl, h.2 [("PatientId", Value.vStr "Not provided")] rfl⟩

/-- Counterexample schema for C2: an Optional-typed field with a declared
static default, as pydantic `status: Optional[str] = "active"`.
Single-field construction accepts an explicit null (which is what an
absent key reads as), so it succeeds on a missing field. -/
def C2cxField : FieldDescr :=
  { name := "status", aliasName := none, default := some (.vStr "active"),
    defaultFactory := none, fieldType := .tStr, construct := fun v => some v }

/-- Counterexample schema for C2. -/
def C2cxSchema : Schema := { fields := [C2cxField], finalOk := fun _ => true }

/-- Counterexample to C2 as stated: validating a raw mapping in which the
field "status" is absent yields null for it, not its declared static
default "active" - absence alone does not trigger the default
substitution; only a failing single-field construction does. -/
theorem C2_counterexample :
    validate_with_field_level_correction C2cxSchema [] = .ok [("status", Value.vNull)] ∧
    Value.vNull ≠ Value.vStr "active" :=
  ⟨rfl, fun h => Value.noConfusion h⟩

/-! ### Concrete environments shared by witnesses and counterexamples -/

/-- A trivial schema with no fields. -/
def trivSchema : Schema := { fields := [], finalOk := fun _ => true }

/-- A concrete pipeline configuration. -/
def trivCfg : Config :=
  { max_tokens := 1000, patientSchema := trivSchema, physicianSchema := trivSchema,
    clinicalSchema := trivSchema }

/-- A generation result carrying an empty structured payload. -/
def trivGen : GenOut := .out (.vDict []) []

/-- An environment in which every collaborator succeeds: one uploaded
file, one search hit at "policies/asthma-v2", a downloadable policy and a
plain "APPROVED" determination. -/
def happyEnv : Env :=
  { rawRemote := ["https://blob/raw/doc.pdf"]
    processedRemote := ["https://blob/img/p1.png"]
    imageFiles := ["p1.png"]
    patientResp := .ok trivGen
    physicianResp := .ok trivGen
    clinicianResp := .ok trivGen
    queryResp := .ok (.out (.vDict [("optimized_query", .vStr "asthma policy")]) [])
    search := .ok [some "policies/asthma-v2"]
    download := .ok (some "policy-bytes")
    analyze := .ok (some "materialized policy text")
    o1Resp := fun _ => .ok (.out (.vStr "APPROVED") [])
    chatDet := fun _ => .ok (.out (.vStr "APPROVED") [])
    chatSum := fun _ => .ok (.out (.vStr "policy summary") []) }

/-! ### C1: the teardown flush -/

/-- C1 (amended): for every run whose uploaded-file list is non-empty -
however the run ends (success, silent stop on a retrieval sentinel, or a
caught exception) - the teardown flush `store_output` executes exactly
once, on the final accumulated state; and the flush upserts the case's
full accumulated result mapping (plus the case id key) into durable
storage keyed by case id when any data was accumulated, and logs a warning
and writes nothing when none was. (An empty uploaded-file list returns
before the `try`/`finally`, so no flush happens - see the
counterexample.) -/
theorem C1_flush_once_in_teardown (caseId : String) (cfg : Config) (env : Env)
    (files : List String) (use_o1 : Bool) (h : files ≠ []) :
    (run caseId cfg env files use_o1).storeAction
      = some (store_output caseId (run caseId cfg env files use_o1).st) ∧
    (getKeyD (run caseId cfg env files use_o1).st.results caseId [] ≠ [] →
      store_output caseId (run caseId cfg env files use_o1).st
        = .upserted (setKey (getKeyD (run caseId cfg env files use_o1).st.results caseId [])
            "caseId" (.vStr caseId)) caseId) ∧
    (getKeyD (run caseId cfg env files use_o1).st.results caseId [] = [] →
      store_output caseId (run caseId cfg env files use_o1).st = .warnedNoResults) := by
  have hflush : (run caseId cfg env files use_o1).storeAction
      = some (store_output caseId (run caseId cfg env files use_o1).st) := by
    cases files with
    | nil => exact absurd rfl h
    | cons f fs =>
      unfold run
      simp only [List.isEmpty_cons, Bool.false_eq_true, if_false]
      repeat' split
      all_goals rfl
  refine ⟨hflush, ?_, ?_⟩
  · intro hne
    unfold store_output
    have : (getKeyD (run caseId cfg env files use_o1).st.results caseId []).isEmpty = false := by
      rcases hd : getKeyD (run caseId cfg env files use_o1).st.results caseId [] with _ | _
      · exact absurd hd hne
      · simp
    simp [this]
  · intro he
    unfold store_output
    simp [he]

/-- Witness for C1: on a concrete successful run the teardown flush is the
single `store_output` of the final state. -/
theorem C1_flush_once_in_teardown_witness :
    (run "case1" trivCfg happyEnv ["doc.pdf"] false).storeAction
      = some (store_output "case1" (run "case1" trivCfg happyEnv ["doc.pdf"] false).st) :=
  (C1_flush_once_in_teardown "case1" trivCfg happyEnv ["doc.pdf"] false (by simp)).1

/-- Counterexample to C1 as stated ("whatever its input"): a run invoked
with an empty uploaded-file list returns early, before the
`try`/`finally`, and `store_output` never executes - zero flushes, not
exactly one. -/
theorem C1_counterexample :
    (run "case-empty" trivCfg happyEnv [] false).storeAction = none := rfl

/-! ### C3: retrieval sentinels stop the run silently -/

theorem run_sentinel_halt (caseId : String) (cfg : Config) (env : Env) (f : String)
    (fs : List String) (use_o1 : Bool) (r : Value) (conv : List Value)
    (hq : env.queryResp = .ok (.out r conv))
    (hsent : locate_policy r env = "No results found" ∨
      locate_policy r env = "Error locating policy") :
    ∃ st, run caseId cfg env (f :: fs) use_o1
        = finishRun caseId .policyNotFound st false false ∧
      caseHasKey caseId st "raw_uploaded_files" = true := by
  unfold run expand_query_and_search_policy
  simp only [List.isEmpty_cons, Bool.false_eq_true, if_false, hq]
  rw [if_pos hsent]
  refine ⟨_, rfl, ?_⟩
  exact caseHasKey_log_output _ _ _ _ _
    (caseHasKey_extract_all _ _ _ _ _ (caseHasKey_process _ _ _))

/-- C3: if the search backend returns zero candidates, `locate_policy`
returns the sentinel "No results found"; if any exception is raised
during the search, it returns the sentinel "Error locating policy"; and
when `run` sees either sentinel it halts the pipeline without raising
anything upward - neither materialization nor determination runs - while
the teardown still flushes the data the prior stages accumulated, as an
upsert keyed by the case id. -/
theorem C3_retrieval_sentinels_halt_silently (caseId : String) (cfg : Config) (env : Env)
    (f : String) (fs : List String) (use_o1 : Bool) (r : Value) (conv : List Value)
    (q : Value) (hq : env.queryResp = .ok (.out r conv))
    (hopt : getKey r "optimized_query" = some q) :
    (env.search = .ok [] → locate_policy r env = "No results found") ∧
    (∀ e, env.search = .exn e → locate_policy r env = "Error locating policy") ∧
    ((env.search = .ok [] ∨ ∃ e, env.search = .exn e) →
      (run caseId cfg env (f :: fs) use_o1).outcome = .policyNotFound ∧
      (run caseId cfg env (f :: fs) use_o1).materializeRan = false ∧
      (run caseId cfg env (f :: fs) use_o1).determinationRan = false ∧
      ∃ doc, (run caseId cfg env (f :: fs) use_o1).storeAction
        = some (.upserted doc caseId)) := by
  have hempty : env.search = .ok [] → locate_policy r env = "No results found" := by
    intro hs
    unfold locate_policy
    rw [hopt, hs]
  have hexn : ∀ e, env.search = .exn e → locate_policy r env = "Error locating policy" := by
    intro e hs
    unfold locate_policy
    rw [hopt, hs]
  refine ⟨hempty, hexn, ?_⟩
  intro hs
  have hsent : locate_policy r env = "No results found" ∨
      locate_policy r env = "Error locating policy" := by
    rcases hs with hs | ⟨e, hs⟩
    · exact Or.inl (hempty hs)
    · exact Or.inr (hexn e hs)
  obtain ⟨st, hrun, hkey⟩ := run_sentinel_halt caseId cfg env f fs use_o1 r conv hq hsent
  rw [hrun]
  refine ⟨rfl, rfl, rfl, ?_⟩
  exact ⟨_, congrArg some (store_output_upserts_of_caseHasKey caseId st _ hkey)⟩

/-- Witness for C3: with a search backend returning zero candidates, the
concrete run stops silently before materialization while still flushing
an upsert. -/
theorem C3_retrieval_sentinels_halt_silently_witness :
    (run "case3" trivCfg { happyEnv with search := .ok [] } ["doc.pdf"] false).outcome
        = .policyNotFound ∧
    (run "case3" trivCfg { happyEnv with search := .ok [] } ["doc.pdf"] false).materializeRan
        = false ∧
    (run "case3" trivCfg { happyEnv with search := .ok [] } ["doc.pdf"] false).determinationRan
        = false ∧
    ∃ doc, (run "case3" trivCfg { happyEnv with search := .ok [] } ["doc.pdf"] false).storeAction
        = some (.upserted doc "case3") :=
  (C3_retrieval_sentinels_halt_silently "case3" trivCfg { happyEnv with search := .ok [] }
    "doc.pdf" [] false (.vDict [("optimized_query", .vStr "asthma policy")]) []
    (.vStr "asthma policy") rfl rfl).2.2 (Or.inl rfl)

/-! ### Runs that get past the retrieval sentinels -/

theorem run_past_retrieval (caseId : String) (cfg : Config) (env : Env) (f : String)
    (fs : List String) (use_o1 : Bool) (r : Value) (conv : List Value)
    (hq : env.queryResp = .ok (.out r conv))
    (hns : ¬(locate_policy r env = "No results found" ∨
      locate_policy r env = "Error locating policy")) :
    (run caseId cfg env (f :: fs) use_o1).materializeRan = true ∧
    (get_policy_text_from_blob env = none →
      (run caseId cfg env (f :: fs) use_o1).outcome
          = .failed "Policy text extraction returned None" ∧
      (run caseId cfg env (f :: fs) use_o1).determinationRan = false ∧
      ∃ doc, (run caseId cfg env (f :: fs) use_o1).storeAction
        = some (.upserted doc caseId)) ∧
    (∀ t, get_policy_text_from_blob env = some t →
      (run caseId cfg env (f :: fs) use_o1).determinationRan = true) := by
  unfold run expand_query_and_search_policy
  simp only [List.isEmpty_cons, Bool.false_eq_true, if_false, hq]
  rw [if_neg hns]
  rcases hm : get_policy_text_from_blob env with _ | t
  · refine ⟨rfl, fun _ => ⟨rfl, rfl, ?_⟩, fun t ht => ?_⟩
    · refine ⟨_, congrArg some (store_output_upserts_of_caseHasKey caseId _
        "raw_uploaded_files" ?_)⟩
      exact caseHasKey_log_output _ _ _ _ _
        (caseHasKey_extract_all _ _ _ _ _ (caseHasKey_process _ _ _))
    · cases ht
  · refine ⟨?_, ?_, ?_⟩
    · repeat' split
      all_goals rfl
    · intro hn
      cases hn
    · intro t' ht'
      repeat' split
      all_goals try rfl
      all_goals exact absurd ‹some t = none› (by simp)

/-! ### C10: a missing parent_path does not halt the run -/

/-- C10: if the search returns at least one candidate but the first ranked
candidate has no "parent_path" attribute, `locate_policy` returns the
string "Path not found"; that string is not one of the two halting
sentinels checked by `run`, so the pipeline does not stop and proceeds to
the materialization stage with "Path not found" as the Policy Location. -/
theorem C10_missing_parent_path_proceeds (caseId : String) (cfg : Config) (env : Env)
    (f : String) (fs : List String) (use_o1 : Bool) (r : Value) (conv : List Value)
    (q : Value) (rest : List (Option String))
    (hq : env.queryResp = .ok (.out r conv))
    (hopt : getKey r "optimized_query" = some q)
    (hs : env.search = .ok (none :: rest)) :
    locate_policy r env = "Path not found" ∧
    (run caseId cfg env (f :: fs) use_o1).materializeRan = true := by
  have hloc : locate_policy r env = "Path not found" := by
    unfold locate_policy
    rw [hopt, hs]
    rfl
  have hns : ¬(locate_policy r env = "No results found" ∨
      locate_policy r env = "Error locating policy") := by
    rw [hloc]
    simp
  exact ⟨hloc, (run_past_retrieval caseId cfg env f fs use_o1 r conv hq hns).1⟩

/-- Witness for C10: a concrete search result whose first hit lacks
"parent_path". -/
theorem C10_missing_parent_path_proceeds_witness :
    locate_policy (.vDict [("optimized_query", .vStr "asthma policy")])
        { happyEnv with search := .ok [none] } = "Path not found" ∧
    (run "case10" trivCfg { happyEnv with search := .ok [none] } ["doc.pdf"] false).materializeRan
        = true :=
  C10_missing_parent_path_proceeds "case10" trivCfg { happyEnv with search := .ok [none] }
    "doc.pdf" [] false (.vDict [("optimized_query", .vStr "asthma policy")]) []
    (.vStr "asthma policy") [] rfl rfl rfl

/-! ### C6: materialization failure degrades to empty text -/

/-- C6: if downloading the policy bytes yields no bytes, or any exception
occurs during download or analysis, `get_policy_text_from_blob` logs the
failure and returns the empty string as the policy text, and the pipeline
then continues into the Determination stage instead of halting. -/
theorem C6_materialization_degrades_to_empty (caseId : String) (cfg : Config) (env : Env)
    (f : String) (fs : List String) (use_o1 : Bool) (r : Value) (conv : List Value)
    (q : Value) (loc : String) (rest : List (Option String))
    (hq : env.queryResp = .ok (.out r conv))
    (hopt : getKey r "optimized_query" = some q)
    (hs : env.search = .ok (some loc :: rest))
    (hl1 : loc ≠ "No results found") (hl2 : loc ≠ "Error locating policy") :
    (env.download = .ok none → get_policy_text_from_blob env = some "") ∧
    (∀ e, env.download = .exn e → get_policy_text_from_blob env = some "") ∧
    (∀ b e, env.download = .ok (some b) → env.analyze = .exn e →
      get_policy_text_from_blob env = some "") ∧
    (get_policy_text_from_blob env = some "" →
      (run caseId cfg env (f :: fs) use_o1).materializeRan = true ∧
      (run caseId cfg env (f :: fs) use_o1).determinationRan = true) := by
  have hloc : locate_policy r env = loc := by
    unfold locate_policy
    rw [hopt, hs]
    rfl
  have hns : ¬(locate_policy r env = "No results found" ∨
      locate_policy r env = "Error locating policy") := by
    rw [hloc]
    simp [hl1, hl2]
  refine ⟨?_, ?_, ?_, ?_⟩
  · intro hd
    unfold get_policy_text_from_blob
    rw [hd]
  · intro e hd
    unfold get_policy_text_from_blob
    rw [hd]
  · intro b e hd ha
    unfold get_policy_text_from_blob
    rw [hd, ha]
  · intro ht
    have h := run_past_retrieval caseId cfg env f fs use_o1 r conv hq hns
    exact ⟨h.1, h.2.2 "" ht⟩

/-- Witness for C6: a download returning no bytes on a concrete run. -/
theorem C6_materialization_degrades_to_empty_witness :
    get_policy_text_from_blob { happyEnv with download := .ok none } = some "" ∧
    (run "case6" trivCfg { happyEnv with download := .ok none } ["doc.pdf"] false).materializeRan
        = true ∧
    (run "case6" trivCfg { happyEnv with download := .ok none } ["doc.pdf"] false).determinationRan
        = true := by
  have h := C6_materialization_degrades_to_empty "case6" trivCfg
    { happyEnv with download := .ok none } "doc.pdf" [] false
    (.vDict [("optimized_query", .vStr "asthma policy")]) [] (.vStr "asthma policy")
    "policies/asthma-v2" [] rfl rfl rfl (by decide) (by decide)
  exact ⟨h.1 rfl, h.2.2.2 (h.1 rfl)⟩

/-! ### C9: what the caller actually raises on -/

/-- C9 (amended): `run` raises only on a `None` (null) policy text - which
`get_policy_text_from_blob` produces only when document analysis returns a
null `content` - and that `ValueError` is caught once at the run boundary,
the run is marked failed, the Determination stage is never entered, and
the teardown still flushes the accumulated data. An *empty-string* policy
text (the materialization-failure degradation) does not raise: it flows
into the Determination stage (see the counterexample). -/
theorem C9_none_policy_text_raises (caseId : String) (cfg : Config) (env : Env)
    (f : String) (fs : List String) (use_o1 : Bool) (r : Value) (conv : List Value)
    (q : Value) (loc : String) (rest : List (Option String)) (b : String)
    (hq : env.queryResp = .ok (.out r conv))
    (hopt : getKey r "optimized_query" = some q)
    (hs : env.search = .ok (some loc :: rest))
    (hl1 : loc ≠ "No results found") (hl2 : loc ≠ "Error locating policy")
    (hdl : env.download = .ok (some b)) (han : env.analyze = .ok none) :
    get_policy_text_from_blob env = none ∧
    (run caseId cfg env (f :: fs) use_o1).outcome
        = .failed "Policy text extraction returned None" ∧
    (run caseId cfg env (f :: fs) use_o1).determinationRan = false ∧
    ∃ doc, (run caseId cfg env (f :: fs) use_o1).storeAction
        = some (.upserted doc caseId) := by
  have hnone : get_policy_text_from_blob env = none := by
    unfold get_policy_text_from_blob
    rw [hdl, han]
  have hloc : locate_policy r env = loc := by
    unfold locate_policy
    rw [hopt, hs]
    rfl
  have hns : ¬(locate_policy r env = "No results found" ∨
      locate_policy r env = "Error locating policy") := by
    rw [hloc]
    simp [hl1, hl2]
  have h := (run_past_retrieval caseId cfg env f fs use_o1 r conv hq hns).2.1 hnone
  exact ⟨hnone, h.1, h.2.1, h.2.2⟩

/-- Witness for C9 (amended): a null analysis content on a concrete run. -/
theorem C9_none_policy_text_raises_witness :
    get_policy_text_from_blob { happyEnv with analyze := .ok none } = none ∧
    (run "case9w" trivCfg { happyEnv with analyze := .ok none } ["doc.pdf"] false).outcome
        = .failed "Policy text extraction returned None" ∧
    (run "case9w" trivCfg { happyEnv with analyze := .ok none } ["doc.pdf"] false).determinationRan
        = false ∧
    ∃ doc, (run "case9w" trivCfg { happyEnv with analyze := .ok none } ["doc.pdf"] false).storeAction
        = some (.upserted doc "case9w") :=
  C9_none_policy_text_raises "case9w" trivCfg { happyEnv with analyze := .ok none }
    "doc.pdf" [] false (.vDict [("optimized_query", .vStr "asthma policy")]) []
    (.vStr "asthma policy") "policies/asthma-v2" [] "policy-bytes" rfl rfl rfl
    (by decide) (by decide) rfl rfl

/-- Counterexample to C9 as stated: a materialization that yields the
*empty* policy text does not raise - the concrete run completes, the
Determination stage is entered, and the empty string is logged as the
case's "policy_text" - the run is not marked failed. -/
theorem C9_counterexample :
    get_policy_text_from_blob { happyEnv with download := .ok none } = some "" ∧
    (run "case9" trivCfg { happyEnv with download := .ok none } ["doc.pdf"] false).outcome
        = .completed ∧
    (run "case9" trivCfg { happyEnv with download := .ok none } ["doc.pdf"] false).determinationRan
        = true ∧
    getKeyD (getKeyD (run "case9" trivCfg { happyEnv with download := .ok none }
        ["doc.pdf"] false).st.results "case9" []) "policy_text" .vNull = .vStr "" :=
  ⟨rfl, rfl, rfl, rfl⟩

/-! ### C7 / C8: the extraction paths -/

theorem log_output_results (caseId : String) (st : PState) (kvs : List (String × Value))
    (conv : Option (List Value)) :
    (log_output caseId st (.vDict kvs) conv).results
      = setKey st.results caseId (dictUpdate (getKeyD st.results caseId []) kvs) := by
  unfold log_output
  cases conv with
  | none => rfl
  | some c =>
    by_cases hc : c.isEmpty
    · simp [hc]
    · simp [hc]

/-- C7: if one of the three extraction calls raises, the exception is
caught inside that extraction function and it returns the schema's
all-default instance; the sibling extractions are not aborted and their
validated records are still merged into the case's accumulated results. -/
theorem C7_extraction_paths_independent (caseId : String) (cfg : Config) (env : Env)
    (st : PState) (e : String) (dph dc : List (String × Value)) (cph cc : List Value)
    (P C : List (String × Value))
    (hp : env.patientResp = .exn e)
    (hph : env.physicianResp = .ok (.out (.vDict dph) cph))
    (hc : env.clinicianResp = .ok (.out (.vDict dc) cc))
    (hvph : validate_with_field_level_correction cfg.physicianSchema dph = .ok P)
    (hvc : validate_with_field_level_correction cfg.clinicalSchema dc = .ok C) :
    (extract_all_data caseId cfg env st).2.patient = allDefaultInstance cfg.patientSchema ∧
    (extract_all_data caseId cfg env st).2.physician = P ∧
    (extract_all_data caseId cfg env st).2.clinician = C ∧
    getKeyD (extract_all_data caseId cfg env st).1.results caseId []
      = dictUpdate (dictUpdate (getKeyD st.results caseId []) P) C := by
  unfold extract_all_data extract_one
  simp only [hp, hph, hc, hvph, hvc]
  refine ⟨?_, ?_, ?_, ?_⟩
  · trivial
  · trivial
  · trivial
  · rw [log_output_results, log_output_results, getKeyD_setKey_self, getKeyD_setKey_self]

/-- Witness for C7: the patient call raises while physician and clinician
succeed with empty payloads against the trivial schema. -/
theorem C7_extraction_paths_independent_witness :
    (extract_all_data "case7" trivCfg
        { happyEnv with patientResp := .exn "boom" } initState).2.patient
      = allDefaultInstance trivCfg.patientSchema ∧
    (extract_all_data "case7" trivCfg
        { happyEnv with patientResp := .exn "boom" } initState).2.physician = [] ∧
    (extract_all_data "case7" trivCfg
        { happyEnv with patientResp := .exn "boom" } initState).2.clinician = [] ∧
    getKeyD (extract_all_data "case7" trivCfg
        { happyEnv with patientResp := .exn "boom" } initState).1.results "case7" []
      = dictUpdate (dictUpdate (getKeyD (initState).results "case7" []) []) [] :=
  C7_extraction_paths_independent "case7" trivCfg
    { happyEnv with patientResp := .exn "boom" } initState "boom" [] [] [] [] [] []
    rfl rfl rfl rfl rfl

/-- The `ChatReq` issued by an extraction call. -/
def extractReq (prompt : Prompt) (system : String) (cfg : Config) : ChatReq :=
  { prompt := prompt, system := some system, response_format := "json_object",
    max_tokens := cfg.max_tokens }

/-- C8 (amended): when the Schema Validator's final full-record
construction from the merged per-field map fails, the validator raises -
but that exception is not left uncaught below the run boundary: the
extraction function's broad `except` catches it at once and degrades that
path to the schema's all-default instance, exactly as for any other
extraction-path failure. -/
theorem C8_final_construction_caught_in_extraction (caseId : String) (cfg : Config)
    (m : Schema) (data : List (String × Value)) (conv : List Value) (prompt : Prompt)
    (system : String) (st : PState)
    (h : m.finalOk (m.fields.map (fun f => (f.name, validateField data f))) = false) :
    validate_with_field_level_correction m data = .error "ValidationError" ∧
    extract_one caseId m prompt system (.ok (.out (.vDict data) conv)) cfg st
      = ({ st with calls := st.calls ++ [.chat (extractReq prompt system cfg)] },
         allDefaultInstance m) := by
  have hval : validate_with_field_level_correction m data = .error "ValidationError" := by
    unfold validate_with_field_level_correction
    simp [h]
  refine ⟨hval, ?_⟩
  unfold extract_one
  simp only [hval]
  rfl

/-- A schema whose final whole-record construction always fails (as with a
model-level validator rejecting the record). -/
def C8cxSchema : Schema := { fields := [], finalOk := fun _ => false }

/-- A configuration whose patient schema has a failing final construction. -/
def C8cxCfg : Config := { trivCfg with patientSchema := C8cxSchema }

/-- Witness for C8 (amended): the failing final construction on a concrete
extraction call degrades to the all-default instance. -/
theorem C8_final_construction_caught_in_extraction_witness :
    validate_with_field_level_correction C8cxSchema [] = .error "ValidationError" ∧
    extract_one "case8" C8cxSchema .nerPatient PATIENT_PROMPT_NER_SYSTEM
        (.ok (.out (.vDict []) [])) C8cxCfg initState
      = ({ initState with calls := initState.calls ++
            [.chat (extractReq .nerPatient PATIENT_PROMPT_NER_SYSTEM C8cxCfg)] },
         allDefaultInstance C8cxSchema) :=
  C8_final_construction_caught_in_extraction "case8" C8cxCfg C8cxSchema [] []
    .nerPatient PATIENT_PROMPT_NER_SYSTEM initState rfl

/-- Counterexample to C8 as stated: with a patient schema whose final
construction fails, the validator raises, yet the whole concrete run
completes - no exception reaches the run boundary, because
`extract_patient_data`'s broad `except` catches it and degrades; the
extraction stage does not treat it as a stage-level hard failure. -/
theorem C8_counterexample :
    validate_with_field_level_correction C8cxSchema [] = .error "ValidationError" ∧
    (run "case8" C8cxCfg happyEnv ["doc.pdf"] false).outcome = .completed :=
  ⟨rfl, rfl⟩

/-! ### C4 / C5: the determination stage -/

/-- Cast an external-call outcome to the raised-or-returned shape. -/
def extResToExcept {α : Type} : ExtRes α → Except String α
  | .ok a => .ok a
  | .exn e => .error e

/-- Is this recorded request an o1 (Path A) call? -/
def isO1Call : CallEvent → Bool
  | .o1 _ => true
  | .chat _ => false

/-- The o1 request of Path A: a 15000 completion-token budget. -/
def o1Req (p : Prompt) : O1Req := { prompt := p, max_completion_tokens := 15000 }

/-- The summarization request: plain-text response format, fixed
4096-token budget. -/
def sumReq (policy_text : String) : ChatReq :=
  { prompt := .summarizePolicy policy_text, system := some SYSTEM_PROMPT_SUMMARIZE_POLICY,
    response_format := "text", max_tokens := 4096 }

/-- The Path B request: plain-text response format, configured budget. -/
def detReq (p : Prompt) (cfg : Config) : ChatReq :=
  { prompt := p, system := some SYSTEM_PROMPT_PRIOR_AUTH, response_format := "text",
    max_tokens := cfg.max_tokens }

theorem log_output_calls (caseId : String) (st : PState) (data : Value)
    (conv : Option (List Value)) : (log_output caseId st data conv).calls = st.calls := by
  unfold log_output
  match data with
  | .vNull | .vStr _ | .vInt _ | .vFloat _ | .vBool _ | .vList _ => rfl
  | .vDict kvs =>
    match conv with
    | none => rfl
    | some c =>
      by_cases hc : c.isEmpty
      · simp [hc]
      · simp [hc]

theorem log_output_nO1 (caseId : String) (st : PState) (data : Value)
    (conv : Option (List Value)) : (log_output caseId st data conv).nO1 = st.nO1 := by
  unfold log_output
  match data with
  | .vNull | .vStr _ | .vInt _ | .vFloat _ | .vBool _ | .vList _ => rfl
  | .vDict kvs =>
    match conv with
    | none => rfl
    | some c =>
      by_cases hc : c.isEmpty
      · simp [hc]
      · simp [hc]

theorem log_output_nDet (caseId : String) (st : PState) (data : Value)
    (conv : Option (List Value)) : (log_output caseId st data conv).nDet = st.nDet := by
  unfold log_output
  match data with
  | .vNull | .vStr _ | .vInt _ | .vFloat _ | .vBool _ | .vList _ => rfl
  | .vDict kvs =>
    match conv with
    | none => rfl
    | some c =>
      by_cases hc : c.isEmpty
      · simp [hc]
      · simp [hc]

theorem log_output_nSum (caseId : String) (st : PState) (data : Value)
    (conv : Option (List Value)) : (log_output caseId st data conv).nSum = st.nSum := by
  unfold log_output
  match data with
  | .vNull | .vStr _ | .vInt _ | .vFloat _ | .vBool _ | .vList _ => rfl
  | .vDict kvs =>
    match conv with
    | none => rfl
    | some c =>
      by_cases hc : c.isEmpty
      · simp [hc]
      · simp [hc]

theorem summarize_policy_calls (caseId : String) (cfg : Config) (env : Env) (st : PState)
    (pt : String) : (summarize_policy caseId cfg env st pt).1.calls
      = st.calls ++ [.chat (sumReq pt)] := by
  simp only [summarize_policy]
  cases hsum : env.chatSum st.nSum with
  | exn e => rfl
  | ok g =>
    cases g with
    | maxContext => rfl
    | out r conv => simp [log_output_calls, sumReq]

theorem summarize_policy_nDet (caseId : String) (cfg : Config) (env : Env) (st : PState)
    (pt : String) : (summarize_policy caseId cfg env st pt).1.nDet = st.nDet := by
  simp only [summarize_policy]
  cases hsum : env.chatSum st.nSum with
  | exn e => rfl
  | ok g =>
    cases g with
    | maxContext => rfl
    | out r conv => simp [log_output_nDet]

theorem summarize_policy_nO1 (caseId : String) (cfg : Config) (env : Env) (st : PState)
    (pt : String) : (summarize_policy caseId cfg env st pt).1.nO1 = st.nO1 := by
  simp only [summarize_policy]
  cases hsum : env.chatSum st.nSum with
  | exn e => rfl
  | ok g =>
    cases g with
    | maxContext => rfl
    | out r conv => simp [log_output_nO1]

theorem finishDetermination_calls (caseId : String) (st : PState) (r : GenOut) :
    (finishDetermination caseId st r).1.calls = st.calls := by
  cases r with
  | out resp conv => simp [finishDetermination, log_output_calls]
  | maxContext => rfl

theorem pathBAttempt_calls (caseId : String) (cfg : Config) (env : Env) (st : PState)
    (p : Prompt) (pt : String) :
    ∃ l, (pathBAttempt caseId cfg env st p pt).1.calls
        = st.calls ++ (.chat (detReq p cfg) :: l) ∧
      ∀ ev ∈ l, isO1Call ev = false := by
  simp only [pathBAttempt]
  split
  · exact ⟨[], rfl, by simp⟩
  · split
    · rename_i st2 e heq
      refine ⟨[.chat (sumReq pt)], ?_, by simp [isO1Call]⟩
      have hc := congrArg (fun x : PState × Except String Value => x.1.calls) heq
      dsimp only at hc
      rw [summarize_policy_calls] at hc
      dsimp only at hc ⊢
      rw [← hc]
      simp [detReq]
    · rename_i st2 summary heq
      have hc := congrArg (fun x : PState × Except String Value => x.1.calls) heq
      dsimp only at hc
      rw [summarize_policy_calls] at hc
      dsimp only at hc
      split
      · refine ⟨[.chat (sumReq pt), .chat (detReq (.pa summary false) cfg)], ?_,
          by simp [isO1Call]⟩
        dsimp only
        rw [← hc]
        simp [detReq]
      · refine ⟨[.chat (sumReq pt), .chat (detReq (.pa summary false) cfg)], ?_,
          by simp [isO1Call]⟩
        dsimp only
        rw [← hc]
        simp [detReq]
  · exact ⟨[], rfl, by simp⟩

theorem pathB_calls (caseId : String) (cfg : Config) (env : Env) (st : PState)
    (p : Prompt) (pt : String) :
    ∃ l, (pathB caseId cfg env st p pt).1.calls
        = st.calls ++ (.chat (detReq p cfg) :: l) ∧
      ∀ ev ∈ l, isO1Call ev = false := by
  simp only [pathB]
  split
  · rename_i stB r heq
    obtain ⟨l, hl, hno⟩ := pathBAttempt_calls caseId cfg env st p pt
    rw [heq] at hl
    exact ⟨l, hl, hno⟩
  · rename_i stB e heq
    obtain ⟨l1, hl1, hno1⟩ := pathBAttempt_calls caseId cfg env st p pt
    rw [heq] at hl1
    dsimp only at hl1
    obtain ⟨l2, hl2, hno2⟩ := pathBAttempt_calls caseId cfg env stB p pt
    split
    · rename_i stC r heq2
      rw [heq2] at hl2
      dsimp only at hl2
      refine ⟨l1 ++ (.chat (detReq p cfg) :: l2), ?_, ?_⟩
      · rw [hl2, hl1]
        simp [List.append_assoc]
      · intro ev hev
        simp only [List.mem_append, List.mem_cons] at hev
        rcases hev with h | h | h
        · exact hno1 ev h
        · rw [h]
          rfl
        · exact hno2 ev h
    · rename_i stC e2 heq2
      rw [heq2] at hl2
      dsimp only at hl2
      refine ⟨l1 ++ (.chat (detReq p cfg) :: l2), ?_, ?_⟩
      · rw [hl2, hl1]
        simp [List.append_assoc]
      · intro ev hev
        simp only [List.mem_append, List.mem_cons] at hev
        rcases hev with h | h | h
        · exact hno1 ev h
        · rw [h]
          rfl
        · exact hno2 ev h

/-- The state after a Path A call that raised. -/
def afterPathAFail (st : PState) (p : Prompt) : PState :=
  { st with nO1 := st.nO1 + 1, calls := st.calls ++ [.o1 (o1Req p)] }

/-- C4: on the Determination stage's primary path, a response equal to the
sentinel "maximum context length" triggers exactly one retry - the second
and last o1 call, made with the prompt rebuilt from the summarized policy
text obtained through the dedicated summarization sub-call (a separate
plain-text generation call with a fixed 4096-token budget), both o1 calls
carrying the 15000 completion-token budget - while any exception on
Path A makes `generate_final_determination` fall back unconditionally to
the secondary path: its trace shows the single Path A call followed by a
Path B request and no further o1 calls. -/
theorem C4_pathA_one_retry_then_fallback (caseId : String) (cfg : Config) (env : Env)
    (st : PState) (pt : String) (u : Bool) (s : Value) (sconv : List Value) :
    (env.o1Resp st.nO1 = .ok .maxContext →
      env.chatSum st.nSum = .ok (.out s sconv) →
      ∀ p, (pathA caseId cfg env st p pt u).1.calls
          = st.calls ++ [.o1 (o1Req p), .chat (sumReq pt), .o1 (o1Req (.pa s u))] ∧
        (pathA caseId cfg env st p pt u).2 = extResToExcept (env.o1Resp (st.nO1 + 1))) ∧
    (∀ e, env.o1Resp st.nO1 = .exn e →
      (∀ p, pathA caseId cfg env st p pt u = (afterPathAFail st p, .error e)) ∧
      ∃ l, (generate_final_determination caseId cfg env st pt true).1.calls
          = st.calls ++ [.o1 (o1Req (.pa (.vStr pt) true)),
              .chat (detReq (.pa (.vStr pt) true) cfg)] ++ l ∧
        ∀ ev ∈ l, isO1Call ev = false) := by
  constructor
  · intro h1 h2 p
    simp only [pathA, summarize_policy, h1, h2, log_output_nO1, log_output_calls]
    cases h3 : env.o1Resp (st.nO1 + 1) with
    | ok r =>
      refine ⟨?_, ?_⟩ <;>
        simp [log_output_calls, o1Req, sumReq, extResToExcept, List.append_assoc, h3]
    | exn e =>
      refine ⟨?_, ?_⟩ <;>
        simp [log_output_calls, o1Req, sumReq, extResToExcept, List.append_assoc, h3]
  · intro e h1
    have hA : ∀ p, pathA caseId cfg env st p pt true
        = (afterPathAFail st p, .error e) := by
      intro p
      simp only [pathA, h1]
      rfl
    refine ⟨?_, ?_⟩
    · intro p
      simp only [pathA, h1]
      rfl
    · simp only [generate_final_determination, if_true]
      rw [hA (.pa (.vStr pt) true)]
      obtain ⟨l2, hl2, hno2⟩ := pathB_calls caseId cfg env
        (afterPathAFail st (.pa (.vStr pt) true)) (.pa (.vStr pt) true) pt
      rcases hb : pathB caseId cfg env (afterPathAFail st (.pa (.vStr pt) true))
          (.pa (.vStr pt) true) pt with ⟨stB, resB⟩
      rw [hb] at hl2
      dsimp only at hl2
      cases resB with
      | error eB =>
        refine ⟨l2, ?_, hno2⟩
        dsimp only
        rw [hb]
        dsimp only
        rw [hl2]
        simp [afterPathAFail, List.append_assoc]
      | ok rB =>
        refine ⟨l2, ?_, hno2⟩
        dsimp only
        rw [hb]
        dsimp only
        rw [finishDetermination_calls, hl2]
        simp [afterPathAFail, List.append_assoc]

/-- The environment for the C4 witness, Path A branch: the first o1 call
signals context-length, the retry succeeds. -/
def C4envA : Env :=
  { happyEnv with o1Resp := fun k =>
      if k = 0 then .ok .maxContext else .ok (.out (.vStr "APPROVED") []) }

/-- The environment for the C4 witness, fallback branch: every o1 call
raises. -/
def C4envB : Env := { happyEnv with o1Resp := fun _ => .exn "o1 down" }

/-- Witness for C4: the concrete sentinel run makes exactly the two
15000-budget o1 calls around one 4096-budget summarization, and the
concrete raising run falls back after its single o1 call. -/
theorem C4_pathA_one_retry_then_fallback_witness :
    (pathA "c4" trivCfg C4envA initState (.pa (.vStr "policy") true) "policy" true).1.calls
      = [.o1 (o1Req (.pa (.vStr "policy") true)), .chat (sumReq "policy"),
         .o1 (o1Req (.pa (.vStr "policy summary") true))] ∧
    pathA "c4" trivCfg C4envB initState (.pa (.vStr "policy") true) "policy" true
      = (afterPathAFail initState (.pa (.vStr "policy") true), .error "o1 down") := by
  constructor
  · have h := (C4_pathA_one_retry_then_fallback "c4" trivCfg C4envA initState "policy"
      true (.vStr "policy summary") []).1 rfl rfl (.pa (.vStr "policy") true)
    simpa using h.1
  · exact ((C4_pathA_one_retry_then_fallback "c4" trivCfg C4envB initState "policy"
      true (.vStr "policy summary") []).2 "o1 down" rfl).1 (.pa (.vStr "policy") true)

/-- The state after one Path B call. -/
def afterPathBCall (st : PState) (p : Prompt) (cfg : Config) : PState :=
  { st with nDet := st.nDet + 1, calls := st.calls ++ [.chat (detReq p cfg)] }

/-- C5: the Path B loop makes at most 2 attempts; a "maximum context
length" response within an attempt is handled by exactly one
summarized-policy rebuild-and-retry inside the same attempt; a
non-context-length exception is logged and the attempt retried while
attempts remain; and after two consecutive non-context-length failures
the second exception is re-raised out of the determination stage. -/
theorem C5_pathB_two_attempts_then_reraise (caseId : String) (cfg : Config) (env : Env)
    (st : PState) (p : Prompt) (pt : String) :
    (∀ e1 e2, env.chatDet st.nDet = .exn e1 → env.chatDet (st.nDet + 1) = .exn e2 →
      (pathB caseId cfg env st p pt).2 = .error e2 ∧
      (pathB caseId cfg env st p pt).1.calls
        = st.calls ++ [.chat (detReq p cfg), .chat (detReq p cfg)] ∧
      (generate_final_determination caseId cfg env st pt false).2 = .error e2) ∧
    (∀ r conv, env.chatDet st.nDet = .ok (.out r conv) →
      pathB caseId cfg env st p pt = (afterPathBCall st p cfg, .ok (.out r conv))) ∧
    (∀ e1 r conv, env.chatDet st.nDet = .exn e1 →
      env.chatDet (st.nDet + 1) = .ok (.out r conv) →
      (pathB caseId cfg env st p pt).2 = .ok (.out r conv)) ∧
    (∀ s sconv r, env.chatDet st.nDet = .ok .maxContext →
      env.chatSum st.nSum = .ok (.out s sconv) →
      env.chatDet (st.nDet + 1) = .ok r →
      (pathB caseId cfg env st p pt).2 = .ok r ∧
      (pathB caseId cfg env st p pt).1.calls
        = st.calls ++ [.chat (detReq p cfg), .chat (sumReq pt),
            .chat (detReq (.pa s false) cfg)]) := by
  refine ⟨?_, ?_, ?_, ?_⟩
  · intro e1 e2 h1 h2
    refine ⟨?_, ?_, ?_⟩
    · simp only [pathB, pathBAttempt, h1, h2]
    · simp only [pathB, pathBAttempt, h1, h2]
      simp [detReq, List.append_assoc]
    · simp only [generate_final_determination, Bool.false_eq_true, if_false, pathB,
        pathBAttempt, h1, h2]
  · intro r conv h
    simp only [pathB, pathBAttempt, h]
    rfl
  · intro e1 r conv h1 h2
    simp only [pathB, pathBAttempt, h1, h2]
  · intro s sconv r h1 hsum h2
    refine ⟨?_, ?_⟩
    · simp only [pathB, pathBAttempt, summarize_policy, h1, hsum, log_output_nDet, h2]
    · simp only [pathB, pathBAttempt, summarize_policy, h1, hsum, log_output_nDet,
        log_output_calls, h2]
      cases r <;> simp [detReq, sumReq, List.append_assoc]

/-- The environment for the C5 witness, re-raise branch: every Path B call
raises. -/
def C5envA : Env := { happyEnv with chatDet := fun _ => .exn "4o down" }

/-- The environment for the C5 witness, context-length branch: the first
Path B call signals context-length, the in-attempt retry succeeds. -/
def C5envD : Env :=
  { happyEnv with chatDet := fun k =>
      if k = 0 then .ok .maxContext else .ok (.out (.vStr "APPROVED") []) }

/-- Witness for C5: two concrete consecutive failures re-raise the second
exception out of the determination stage, and a concrete context-length
response is retried once with the summarized prompt inside the attempt. -/
theorem C5_pathB_two_attempts_then_reraise_witness :
    (pathB "c5" trivCfg C5envA initState (.pa (.vStr "policy") false) "policy").2
        = .error "4o down" ∧
    (generate_final_determination "c5" trivCfg C5envA initState "policy" false).2
        = .error "4o down" ∧
    (pathB "c5" trivCfg C5envD initState (.pa (.vStr "policy") false) "policy").1.calls
        = [.chat (detReq (.pa (.vStr "policy") false) trivCfg), .chat (sumReq "policy"),
           .chat (detReq (.pa (.vStr "policy summary") false) trivCfg)] := by
  have ha := (C5_pathB_two_attempts_then_reraise "c5" trivCfg C5envA initState
    (.pa (.vStr "policy") false) "policy").1 "4o down" "4o down" rfl rfl
  have hd := (C5_pathB_two_attempts_then_reraise "c5" trivCfg C5envD initState
    (.pa (.vStr "policy") false) "policy").2.2.2 (.vStr "policy summary") []
    (.out (.vStr "APPROVED") []) rfl rfl rfl
  exact ⟨ha.1, ha.2.2, by simpa using hd.2⟩
